import Mathlib

/-!
Verification of the natural-language query pipeline in `streamlit_app.py`
(class `LocalDatabaseAssistant`).  The three functions that carry the
pipeline's invariants are embedded here:

* `_validate_query` — the regex blocklist validator (lines 47-72);
* `_generate_sql_query` — statement extraction from the raw model
  response (lines 74-98), modelled as a function of that raw response;
* `process_query` — generate / validate / gate / execute (lines 147-179),
  modelled with the language-model call and the database execution passed
  in as `Except`-valued collaborators (they are external services).

Python regexes over the candidate text are embedded as character-list
scanners with the exact semantics of the patterns used by the source
(`;\s*\w`, `--`, `/*`, and `\bKEYWORD\b` case-insensitively), and each
scanner is proved equivalent to a declarative predicate so that the
spec-level statements do not merely restate the scanner code.
-/

/-- Python regex class `\w` (ASCII): letters, digits, underscore. -/
def isWordChar (c : Char) : Bool :=
  (c ≥ 'a' && c ≤ 'z') || (c ≥ 'A' && c ≤ 'Z') || (c ≥ '0' && c ≤ '9') || c = '_'

/-- Python regex class `\s` (ASCII): space, tab, newline, carriage return,
form feed, vertical tab. -/
def isSpaceChar (c : Char) : Bool :=
  c = ' ' || c = '\t' || c = '\n' || c = '\x0d' || c = '\x0b' || c = '\x0c'

/-- Python `str.strip()` on a character list: drop leading and trailing
whitespace. -/
def pyStrip (l : List Char) : List Char :=
  ((l.dropWhile isSpaceChar).reverse.dropWhile isSpaceChar).reverse

/-- After a `;` was seen: skip whitespace (`\s*`), succeed on a word
character (`\w`).  Together with `matchSemiWord` this is Python
`re.search(r";\s*\w", query)`. -/
def semiWordAfter : List Char → Bool
  | [] => false
  | c :: rest =>
    if isWordChar c then true
    else if isSpaceChar c then semiWordAfter rest
    else false

/-- Scanner for the source pattern `;\s*\w` ("Disallow multiple
statements"): some `;` is followed, after optional whitespace, by a word
character. -/
def matchSemiWord : List Char → Bool
  | [] => false
  | c :: rest => (c = ';' && semiWordAfter rest) || matchSemiWord rest

/-- Case-insensitively strip `kw` (given lowercase) from the front of `s`;
return the remainder on success. -/
def stripPrefixCI : List Char → List Char → Option (List Char)
  | [], s => some s
  | _ :: _, [] => none
  | k :: ks, c :: cs => if c.toLower = k then stripPrefixCI ks cs else none

/-- Does `kw` occur at the head of `s` as a whole word: the match must be
followed by end-of-string or a non-word character (the trailing `\b`). -/
def wholeWordHere (kw s : List Char) : Bool :=
  match stripPrefixCI kw s with
  | none => false
  | some [] => true
  | some (c :: _) => !isWordChar c

/-- Is the position after `prev` a word boundary (`\b`): start of string,
or the previous character is not a word character. -/
def boundaryOk : Option Char → Bool
  | none => true
  | some p => !isWordChar p

/-- Scan `s` for a whole-word, case-insensitive occurrence of `kw`;
`prev` is the character before the current position. -/
def cwAux (kw : List Char) : Option Char → List Char → Bool
  | _, [] => false
  | prev, c :: rest =>
    (boundaryOk prev && wholeWordHere kw (c :: rest)) || cwAux kw (some c) rest

/-- Python `re.search(r"\bKW\b", s, re.IGNORECASE)` for a keyword `KW`. -/
def containsWholeWordCI (kw s : String) : Bool :=
  cwAux (kw.data.map Char.toLower) none s.data

/-- The keywords of the source's `unsafe_patterns` list (each wrapped in
`\b...\b` there). -/
def unsafe_keywords : List String :=
  ["UNION", "INTO", "DROP", "DELETE", "UPDATE", "INSERT", "ALTER", "CREATE", "TRUNCATE"]

/-- Embedding of `LocalDatabaseAssistant._validate_query` (lines 47-72):
reject empty input, then reject on the first matching unsafe pattern
(`;\s*\w`, `--`, `/*`, or a blocklisted keyword as a whole word,
case-insensitively); otherwise the statement is SAFE (`true`). -/
def _validate_query (query : String) : Bool :=
  if query.data.isEmpty then false
  else if matchSemiWord query.data then false
  else if decide ("--".data <:+: query.data) then false
  else if decide ("/*".data <:+: query.data) then false
  else if unsafe_keywords.any (fun kw => containsWholeWordCI kw query) then false
  else true

/-! ### Statement extraction (`_generate_sql_query`, lines 74-98) -/

/-- Does `pat` occur at the very front of `s` (case-sensitively)?  Return the
remainder after it. -/
def stripPrefixExact : List Char → List Char → Option (List Char)
  | [], s => some s
  | _ :: _, [] => none
  | k :: ks, c :: cs => if c = k then stripPrefixExact ks cs else none

/-- Split `s` at the first occurrence of `pat`: `(before, after)` with
`s = before ++ pat ++ after`, `before` shortest. -/
def splitAtSub : List Char → List Char → Option (List Char × List Char)
  | pat, s =>
    match stripPrefixExact pat s with
    | some rest => some ([], rest)
    | none =>
      match s with
      | [] => none
      | c :: tail =>
        match splitAtSub pat tail with
        | some (b, a) => some (c :: b, a)
        | none => none

/-- The opening of the fenced block in the source regex
`` ```sql\n(.*?)\n``` ``: the literal characters of "```sql\n". -/
def sqlOpenTag : List Char := "```sql\n".data

/-- The closing "\n```" of the fenced-block regex. -/
def sqlCloseTag : List Char := "\n```".data

/-- The bare "```sql" marker tested by the source with
`if "```sql" in generated_query`. -/
def sqlMarker : List Char := "```sql".data

/-- Try to match the regex `` ```sql\n(.*?)\n``` `` anchored at the head of
`s`: the opening tag here, then the shortest run of characters up to a
closing "\n```".  Returns the captured group. -/
def sqlBlockAt : List Char → Option (List Char)
  | s =>
    match stripPrefixExact sqlOpenTag s with
    | none => none
    | some rest =>
      match splitAtSub sqlCloseTag rest with
      | none => none
      | some (body, _) => some body

/-- Python `re.search` of `` ```sql\n(.*?)\n``` `` with `re.DOTALL`:
leftmost position where the whole pattern matches, shortest capture there. -/
def sqlBlockSearch : List Char → Option (List Char)
  | [] => none
  | c :: rest =>
    match sqlBlockAt (c :: rest) with
    | some body => some body
    | none => sqlBlockSearch rest

/-- Embedding of the extraction step of `_generate_sql_query` (lines
91-98): strip the raw model response; if it contains "```sql" and the
fenced-block regex matches, replace it by the stripped capture group. -/
def extract_sql (raw : String) : String :=
  let g : List Char := pyStrip raw.data
  if decide (sqlMarker <:+: g) then
    match sqlBlockSearch g with
    | some body => String.mk (pyStrip body)
    | none => String.mk g
  else String.mk g

/-- A Python exception escaping a collaborator call: `sqlite3.Error`
(caught at line 174) or any other `Exception` (caught at line 177). -/
inductive PyError where
  | sqlite (msg : String) : PyError
  | other (msg : String) : PyError
deriving DecidableEq

/-- Embedding of `_generate_sql_query` as a function of the raw
language-model response: an exception from the model call propagates;
otherwise the statement is extracted from the raw text. -/
def _generate_sql_query (llmResponse : Except PyError String) : Except PyError String :=
  match llmResponse with
  | .error e => .error e
  | .ok raw => .ok (extract_sql raw)

/-! ### The pipeline (`process_query`, lines 147-179) -/

/-- A cell value returned by the database; the pipeline never inspects
cells, only whether the row list is empty. -/
inductive SQLValue where
  | null : SQLValue
  | intV : Int → SQLValue
  | textV : String → SQLValue
deriving DecidableEq

/-- Column names plus row tuples, as shaped at lines 166-171. -/
structure DataFrame where
  columns : List String
  rows : List (List SQLValue)
deriving DecidableEq

/-- The dictionary returned by `process_query`: each field is an optional
key of the Python dict (`sql_query`, `warning`, `results`, `error`).  A
present `results` key holds either Python `None` (zero rows) or a data
frame. -/
structure PQResult where
  sql_query : Option String
  warning : Option String
  results : Option (Option DataFrame)
  error : Option String
deriving DecidableEq

/-- The warning text of line 160. -/
def warning_message : String :=
  "The generated SQL query contains potentially unsafe code. Do you really wish to proceed?"

/-- The dict `{"error": msg}` (lines 154, 176, 179). -/
def errResult (msg : String) : PQResult := ⟨none, none, none, some msg⟩

/-- The dict `{"sql_query": sql, "warning": ...}` (lines 158-161). -/
def warnResult (sql : String) : PQResult := ⟨some sql, some warning_message, none, none⟩

/-- The dict `{"sql_query": sql, "results": None}` (line 169). -/
def emptyResult (sql : String) : PQResult := ⟨some sql, none, some none, none⟩

/-- The dict `{"sql_query": sql, "results": df}` (lines 171-172). -/
def rowsResult (sql : String) (df : DataFrame) : PQResult := ⟨some sql, none, some (some df), none⟩

/-- The two `except` clauses of `process_query`: `sqlite3.Error` becomes a
"Database error" dict, any other exception an "Error processing query"
dict. -/
def handle_py_error : PyError → PQResult
  | .sqlite msg => errResult ("Database error: " ++ msg)
  | .other msg => errResult ("Error processing query: " ++ msg)

/-- The execution branch of `process_query` (lines 162-173): run the
statement through the database collaborator `execQ`; a raised error is
caught by the matching handler; zero rows yield the `results = None`
dict, otherwise the data frame is attached. -/
def run_execution (sql : String) (execQ : String → Except PyError DataFrame) : PQResult :=
  match execQ sql with
  | .error e => handle_py_error e
  | .ok df => if df.rows.isEmpty then emptyResult sql else rowsResult sql df

/-- Embedding of `process_query` (lines 147-179).  The two external
collaborators are passed in: `llmResponse` is the raw model response (or
the exception its call raised) and `execQ` the database execution.  If the
connection is absent, return the "initialize first" error; generate and
extract the statement; if it is classified unsafe and `force_execute` is
false, return the warning dict carrying the statement; otherwise execute. -/
def process_query (connected : Bool) (llmResponse : Except PyError String)
    (execQ : String → Except PyError DataFrame) (force_execute : Bool) : PQResult :=
  if !connected then errResult "Please initialize the database first."
  else
    match _generate_sql_query llmResponse with
    | .error e => handle_py_error e
    | .ok sql_query =>
      if !(_validate_query sql_query) && !force_execute then warnResult sql_query
      else run_execution sql_query execQ

/-- A trivial database collaborator used to instantiate theorems at
concrete inputs. -/
def execStub : String → Except PyError DataFrame := fun _ => .ok ⟨[], []⟩

/-- A database collaborator that reports a result set with zero rows. -/
def execNoRows : String → Except PyError DataFrame := fun _ => .ok ⟨["Name"], []⟩

/-- A database collaborator that raises `sqlite3.Error` for a missing
column. -/
def execFail : String → Except PyError DataFrame :=
  fun _ => .error (.sqlite "no such column: Foo")

/-- How many of the three content keys (`warning`, `results`, `error`) are
present in a result dict. -/
def populatedKeys (r : PQResult) : Nat :=
  (if r.warning.isSome then 1 else 0) + (if r.results.isSome then 1 else 0) +
    (if r.error.isSome then 1 else 0)

/-! ### Declarative readings of the validator's patterns -/

/-- Declarative reading of `;\s*\w`: somewhere in `s` a `;` is followed,
after a (possibly empty) run of whitespace, by a word character. -/
def SemiThenWordSpec (s : List Char) : Prop :=
  ∃ pre mid c post, s = pre ++ ';' :: (mid ++ c :: post) ∧
    (∀ x ∈ mid, isSpaceChar x = true) ∧ isWordChar c = true

/-- The first character after the match, if any, is not a word character
(trailing `\b`). -/
def PostOk (post : List Char) : Prop :=
  ∀ q, post.head? = some q → isWordChar q = false

/-- Declarative reading of `\bkw\b` with `re.IGNORECASE` (`kw` given
lowercase): a segment of `s` lowercases to `kw` and is bounded on both
sides by the string ends or non-word characters. -/
def WholeWordSpec (kw s : List Char) : Prop :=
  ∃ pre seg post, s = pre ++ seg ++ post ∧ seg.map Char.toLower = kw ∧
    (∀ p, pre.getLast? = some p → isWordChar p = false) ∧ PostOk post

/-- The word-boundary condition to the left of a candidate match, given
the character (if any) preceding the scanned region and the prefix
consumed so far. -/
def PreOk (prev : Option Char) (pre : List Char) : Prop :=
  match pre.getLast? with
  | none => boundaryOk prev = true
  | some p => isWordChar p = false

/-! ### Sanity checks on concrete inputs -/

example : _validate_query "SELECT * FROM Employees" = true := by decide
example : _validate_query "SELECT * FROM Employees; DROP TABLE Employees" = false := by decide
example : _validate_query "" = false := by decide
example : _validate_query "select 1 union select 2" = false := by decide
example : extract_sql "  SELECT 1  " = "SELECT 1" := by decide
example : extract_sql "x ```sql\nSELECT 1\n``` y" = "SELECT 1" := by decide
example : extract_sql "```sql SELECT 1 ```" = "```sql SELECT 1 ```" := by decide
example : extract_sql "```sql\n SELECT 1 \n```" = "SELECT 1" := by decide

example :
    process_query true (.ok "SELECT * FROM Employees; DROP TABLE Employees") execStub false
      = warnResult "SELECT * FROM Employees; DROP TABLE Employees" := by decide

example :
    process_query true (.ok "SELECT 1") execStub false = emptyResult "SELECT 1" := by decide

theorem semiWordAfter_iff (l : List Char) :
    semiWordAfter l = true ↔
      ∃ mid c post, l = mid ++ c :: post ∧
        (∀ x ∈ mid, isSpaceChar x = true) ∧ isWordChar c = true := by
  induction l with
  | nil =>
    constructor
    · intro h; simp [semiWordAfter] at h
    · rintro ⟨mid, c, post, h, -, -⟩
      exact absurd h.symm (by simp)
  | cons a t ih =>
    by_cases hw : isWordChar a
    · simp only [semiWordAfter, if_pos hw, true_iff]
      exact ⟨[], a, t, rfl, by simp, hw⟩
    · by_cases hs : isSpaceChar a
      · simp only [semiWordAfter, if_neg hw, if_pos hs]
        rw [ih]
        constructor
        · rintro ⟨mid, c, post, h, hm, hc⟩
          exact ⟨a :: mid, c, post, by simp [h], by simpa [hs] using hm, hc⟩
        · rintro ⟨mid, c, post, h, hm, hc⟩
          cases mid with
          | nil =>
            obtain ⟨rfl, -⟩ : a = c ∧ t = post := by simpa using h
            exact absurd hc (by simp [hw])
          | cons m ms =>
            obtain ⟨rfl, ht⟩ : a = m ∧ t = ms ++ c :: post := by simpa using h
            exact ⟨ms, c, post, ht, fun x hx => hm x (by simp [hx]), hc⟩
      · simp only [semiWordAfter, if_neg hw, if_neg hs]
        apply iff_of_false (by simp)
        rintro ⟨mid, c, post, h, hm, hc⟩
        cases mid with
        | nil =>
          obtain ⟨rfl, -⟩ : a = c ∧ t = post := by simpa using h
          exact absurd hc (by simp [hw])
        | cons m ms =>
          obtain ⟨rfl, -⟩ : a = m ∧ t = ms ++ c :: post := by simpa using h
          exact absurd (hm a (by simp)) (by simp [hs])

theorem matchSemiWord_iff (s : List Char) :
    matchSemiWord s = true ↔ SemiThenWordSpec s := by
  induction s with
  | nil =>
    constructor
    · intro h; simp [matchSemiWord] at h
    · rintro ⟨pre, mid, c, post, h, -, -⟩
      exact absurd h.symm (by simp)
  | cons a t ih =>
    simp only [matchSemiWord, Bool.or_eq_true, Bool.and_eq_true, decide_eq_true_eq]
    constructor
    · rintro (⟨rfl, hafter⟩ | h)
      · obtain ⟨mid, c, post, ht, hm, hc⟩ := (semiWordAfter_iff t).mp hafter
        exact ⟨[], mid, c, post, by simp [ht], hm, hc⟩
      · obtain ⟨pre, mid, c, post, ht, hm, hc⟩ := ih.mp h
        exact ⟨a :: pre, mid, c, post, by simp [ht], hm, hc⟩
    · rintro ⟨pre, mid, c, post, h, hm, hc⟩
      cases pre with
      | nil =>
        obtain ⟨rfl, ht⟩ : a = ';' ∧ t = mid ++ c :: post := by simpa using h
        exact Or.inl ⟨rfl, (semiWordAfter_iff t).mpr ⟨mid, c, post, ht, hm, hc⟩⟩
      | cons p ps =>
        obtain ⟨rfl, ht⟩ : a = p ∧ t = ps ++ ';' :: (mid ++ c :: post) := by simpa using h
        exact Or.inr (ih.mpr ⟨ps, mid, c, post, ht, hm, hc⟩)

theorem stripPrefixCI_iff (kw : List Char) :
    ∀ s r : List Char, stripPrefixCI kw s = some r ↔
      ∃ seg, s = seg ++ r ∧ seg.map Char.toLower = kw := by
  induction kw with
  | nil =>
    intro s r
    constructor
    · intro h
      obtain rfl : s = r := by simpa [stripPrefixCI] using h
      exact ⟨[], by simp, by simp⟩
    · rintro ⟨seg, rfl, hmap⟩
      obtain rfl : seg = [] := by simpa using hmap
      simp [stripPrefixCI]
  | cons k ks ih =>
    intro s r
    cases s with
    | nil =>
      constructor
      · intro h; simp [stripPrefixCI] at h
      · rintro ⟨seg, h, hmap⟩
        obtain rfl : seg = [] := by
          rcases List.append_eq_nil.mp h.symm with ⟨h1, -⟩; exact h1
        simp at hmap
    | cons c cs =>
      by_cases hck : c.toLower = k
      · simp only [stripPrefixCI, if_pos hck]
        rw [ih cs r]
        constructor
        · rintro ⟨seg, rfl, hmap⟩
          exact ⟨c :: seg, by simp, by simp [hmap, hck]⟩
        · rintro ⟨seg, h, hmap⟩
          cases seg with
          | nil => simp at hmap
          | cons c' seg' =>
            obtain ⟨rfl, hcs⟩ : c = c' ∧ cs = seg' ++ r := by simpa using h
            obtain ⟨-, hmap'⟩ : c.toLower = k ∧ seg'.map Char.toLower = ks := by
              simpa using hmap
            exact ⟨seg', hcs, hmap'⟩
      · simp only [stripPrefixCI, if_neg hck]
        apply iff_of_false (by simp)
        rintro ⟨seg, h, hmap⟩
        cases seg with
        | nil => simp at hmap
        | cons c' seg' =>
          obtain ⟨rfl, -⟩ : c = c' ∧ cs = seg' ++ r := by simpa using h
          obtain ⟨hk, -⟩ : c.toLower = k ∧ seg'.map Char.toLower = ks := by simpa using hmap
          exact hck hk

theorem wholeWordHere_iff (kw s : List Char) :
    wholeWordHere kw s = true ↔
      ∃ seg post, s = seg ++ post ∧ seg.map Char.toLower = kw ∧ PostOk post := by
  unfold wholeWordHere
  cases h : stripPrefixCI kw s with
  | none =>
    apply iff_of_false (by simp)
    rintro ⟨seg, post, rfl, hmap, -⟩
    have : stripPrefixCI kw (seg ++ post) = some post :=
      (stripPrefixCI_iff kw _ post).mpr ⟨seg, rfl, hmap⟩
    rw [this] at h; cases h
  | some r =>
    obtain ⟨seg, rfl, hmap⟩ := (stripPrefixCI_iff kw s r).mp h
    cases r with
    | nil =>
      simp only [true_iff]
      exact ⟨seg, [], rfl, hmap, fun q hq => by simp at hq⟩
    | cons c rest =>
      constructor
      · intro hb
        refine ⟨seg, c :: rest, rfl, hmap, fun q hq => ?_⟩
        obtain rfl : c = q := by simpa using hq
        simpa using hb
      · rintro ⟨seg', post', hsplit, hmap', hpost⟩
        have h2 : stripPrefixCI kw (seg ++ c :: rest) = some post' :=
          (stripPrefixCI_iff kw _ post').mpr ⟨seg', hsplit, hmap'⟩
        rw [h] at h2
        obtain rfl : c :: rest = post' := by simpa using h2
        simpa using hpost c rfl

theorem cwAux_iff (kw : List Char) (hkw : kw ≠ []) :
    ∀ (s : List Char) (prev : Option Char), cwAux kw prev s = true ↔
      ∃ pre seg post, s = pre ++ seg ++ post ∧ seg.map Char.toLower = kw ∧
        PreOk prev pre ∧ PostOk post := by
  intro s
  induction s with
  | nil =>
    intro prev
    simp only [cwAux]
    apply iff_of_false (by simp)
    rintro ⟨pre, seg, post, h, hmap, -, -⟩
    rcases List.append_eq_nil.mp h.symm with ⟨h1, -⟩
    rcases List.append_eq_nil.mp h1 with ⟨-, rfl⟩
    exact hkw (by simpa using hmap.symm)
  | cons c rest ih =>
    intro prev
    simp only [cwAux, Bool.or_eq_true, Bool.and_eq_true]
    constructor
    · rintro (⟨hb, hw⟩ | h)
      · obtain ⟨seg, post, hsplit, hmap, hpost⟩ := (wholeWordHere_iff kw (c :: rest)).mp hw
        exact ⟨[], seg, post, by simpa using hsplit, hmap, by simpa [PreOk] using hb, hpost⟩
      · obtain ⟨pre, seg, post, hsplit, hmap, hpre, hpost⟩ := (ih (some c)).mp h
        refine ⟨c :: pre, seg, post, by simp [hsplit], hmap, ?_, hpost⟩
        cases pre with
        | nil =>
          have : boundaryOk (some c) = true := by simpa [PreOk] using hpre
          simpa [PreOk, boundaryOk] using this
        | cons p ps =>
          simpa [PreOk, List.getLast?_cons_cons] using hpre
    · rintro ⟨pre, seg, post, hsplit, hmap, hpre, hpost⟩
      cases pre with
      | nil =>
        have hb : boundaryOk prev = true := by simpa [PreOk] using hpre
        have hsplit' : c :: rest = seg ++ post := by simpa using hsplit
        exact Or.inl ⟨hb, (wholeWordHere_iff kw _).mpr ⟨seg, post, hsplit', hmap, hpost⟩⟩
      | cons p ps =>
        obtain ⟨rfl, ht⟩ : c = p ∧ rest = ps ++ seg ++ post := by simpa using hsplit
        refine Or.inr ((ih (some c)).mpr ⟨ps, seg, post, ht, hmap, ?_, hpost⟩)
        cases ps with
        | nil =>
          have : isWordChar c = false := by simpa [PreOk] using hpre
          simpa [PreOk, boundaryOk] using this
        | cons p' ps' =>
          simpa [PreOk, List.getLast?_cons_cons] using hpre

theorem containsWholeWordCI_iff (kw s : String) (hkw : kw.data ≠ []) :
    containsWholeWordCI kw s = true ↔ WholeWordSpec (kw.data.map Char.toLower) s.data := by
  unfold containsWholeWordCI
  rw [cwAux_iff _ (by simpa using hkw) s.data none]
  constructor
  · rintro ⟨pre, seg, post, hsplit, hmap, hpre, hpost⟩
    refine ⟨pre, seg, post, hsplit, hmap, ?_, hpost⟩
    intro p hp
    unfold PreOk at hpre
    rw [hp] at hpre
    exact hpre
  · rintro ⟨pre, seg, post, hsplit, hmap, hpre, hpost⟩
    refine ⟨pre, seg, post, hsplit, hmap, ?_, hpost⟩
    unfold PreOk
    cases hlast : pre.getLast? with
    | none => rfl
    | some p => exact hpre p hlast

/-- Characterization of the validator: a statement is SAFE exactly when it
is non-empty and none of the five pattern groups fires. -/
theorem validate_true_iff (q : String) :
    _validate_query q = true ↔
      q.data ≠ [] ∧ matchSemiWord q.data = false ∧
      ¬("--".data <:+: q.data) ∧ ¬("/*".data <:+: q.data) ∧
      ∀ kw ∈ unsafe_keywords, containsWholeWordCI kw q = false := by
  unfold _validate_query
  by_cases h0 : q.data.isEmpty
  · have : q.data = [] := List.isEmpty_iff.mp h0
    simp [h0, this]
  · have hne : q.data ≠ [] := by simpa [List.isEmpty_iff] using h0
    rw [if_neg (by simpa using h0)]
    by_cases h1 : matchSemiWord q.data
    · simp [h1]
    · rw [if_neg (by simpa using h1)]
      by_cases h2 : ("--".data <:+: q.data)
      · simp [h1, h2, hne]
      · rw [if_neg (by simpa using h2)]
        by_cases h3 : ("/*".data <:+: q.data)
        · simp [h1, h2, h3, hne]
        · rw [if_neg (by simpa using h3)]
          by_cases h4 : unsafe_keywords.any (fun kw => containsWholeWordCI kw q)
          · rw [if_pos h4]
            obtain ⟨kw, hmem, hkw⟩ := List.any_eq_true.mp h4
            apply iff_of_false (by simp)
            rintro ⟨-, -, -, -, hall⟩
            exact absurd hkw (by simp [hall kw hmem])
          · rw [if_neg (by simpa using h4)]
            apply iff_of_true rfl
            refine ⟨hne, by simpa using h1, h2, h3, fun kw hmem => ?_⟩
            have := List.any_eq_false.mp (by simpa using h4) kw hmem
            simpa using this

/-- C1: any candidate statement containing a statement separator followed
(after optional whitespace) by a further word character, a line or block
comment marker, or one of the blocklisted keywords as a whole word
(case-insensitively) is classified UNSAFE by `_validate_query`. -/
theorem validator_flags_unsafe (q : String)
    (h : SemiThenWordSpec q.data ∨ "--".data <:+: q.data ∨ "/*".data <:+: q.data ∨
      ∃ kw ∈ unsafe_keywords, WholeWordSpec (kw.data.map Char.toLower) q.data) :
    _validate_query q = false := by
  cases hv : _validate_query q with
  | false => rfl
  | true =>
    obtain ⟨-, h1, h2, h3, h4⟩ := (validate_true_iff q).mp hv
    rcases h with h | h | h | ⟨kw, hmem, h⟩
    · exact absurd ((matchSemiWord_iff _).mpr h) (by simp [h1])
    · exact absurd h h2
    · exact absurd h h3
    · have hne : kw.data ≠ [] := by
        have : ∀ k ∈ unsafe_keywords, k.data ≠ [] := by decide
        exact this kw hmem
      exact absurd ((containsWholeWordCI_iff kw q hne).mpr h) (by simp [h4 kw hmem])

/-- C1 witness: `DELETE FROM Employees` contains the keyword DELETE as a
whole word, so the validator classifies it UNSAFE. -/
theorem validator_flags_unsafe_witness :
    _validate_query "DELETE FROM Employees" = false :=
  validator_flags_unsafe _
    (Or.inr (Or.inr (Or.inr ⟨"DELETE", by decide,
      (containsWholeWordCI_iff "DELETE" "DELETE FROM Employees" (by decide)).mp (by decide)⟩)))

/-- C4: a candidate statement that starts with `SELECT` and contains no
blocklisted token — no separator-then-statement pattern, no comment
marker, no blocklisted keyword as a whole word — is classified SAFE by
`_validate_query`. -/
theorem validator_accepts_clean_select (q : String)
    (hsel : "SELECT".data <+: q.data)
    (h1 : ¬ SemiThenWordSpec q.data)
    (h2 : ¬ ("--".data <:+: q.data))
    (h3 : ¬ ("/*".data <:+: q.data))
    (h4 : ∀ kw ∈ unsafe_keywords, ¬ WholeWordSpec (kw.data.map Char.toLower) q.data) :
    _validate_query q = true := by
  apply (validate_true_iff q).mpr
  refine ⟨?_, ?_, h2, h3, fun kw hmem => ?_⟩
  · intro hq
    rw [hq] at hsel
    have : "SELECT".data = [] := List.prefix_nil.mp hsel
    simp at this
  · cases hms : matchSemiWord q.data with
    | false => rfl
    | true => exact absurd ((matchSemiWord_iff _).mp hms) h1
  · cases hc : containsWholeWordCI kw q with
    | false => rfl
    | true =>
      have hne : kw.data ≠ [] := by
        have : ∀ k ∈ unsafe_keywords, k.data ≠ [] := by decide
        exact this kw hmem
      exact absurd ((containsWholeWordCI_iff kw q hne).mp hc) (h4 kw hmem)

/-- C4 witness: `SELECT * FROM Employees` is a clean single SELECT and the
validator classifies it SAFE. -/
theorem validator_accepts_clean_select_witness :
    _validate_query "SELECT * FROM Employees" = true :=
  validator_accepts_clean_select "SELECT * FROM Employees" (by decide)
    (fun h => absurd ((matchSemiWord_iff _).mpr h) (by decide))
    (by decide) (by decide)
    (by
      intro kw hmem h
      simp only [unsafe_keywords, List.mem_cons, List.not_mem_nil, or_false] at hmem
      rcases hmem with rfl | rfl | rfl | rfl | rfl | rfl | rfl | rfl | rfl <;>
        exact absurd ((containsWholeWordCI_iff _ _ (by decide)).mpr h) (by decide))

/-- C10: the blocklist matches on raw statement text, not on parsed SQL
tokens.  The single read-only statement `SELECT * FROM Employees WHERE
Name = 'Drop'` only mentions DROP inside a quoted string literal, yet the
validator classifies it UNSAFE; replacing the literal's content by a
harmless word makes the otherwise identical statement SAFE. -/
theorem validator_rejects_keyword_in_literal :
    _validate_query "SELECT * FROM Employees WHERE Name = \x27Drop\x27" = false ∧
    _validate_query "SELECT * FROM Employees WHERE Name = \x27Pink\x27" = true := by
  exact ⟨by decide, by decide⟩

/-! ### Gate and pipeline claims -/

/-- C2: the confirmation gate.  For a connected session and a successful
generation: an UNSAFE statement with `force_execute = false` yields the
warning dict and the database collaborator is never consulted (the result
is the same for every executor); a SAFE statement is executed whatever the
flag is; an UNSAFE statement with `force_execute = true` is executed with
no further gating. -/
theorem confirmation_gate (raw : String) (execQ : String → Except PyError DataFrame)
    (force : Bool) :
    (_validate_query (extract_sql raw) = false →
       process_query true (.ok raw) execQ false = warnResult (extract_sql raw) ∧
       ∀ execQ₂, process_query true (.ok raw) execQ₂ false
           = process_query true (.ok raw) execQ false) ∧
    (_validate_query (extract_sql raw) = true →
       process_query true (.ok raw) execQ force = run_execution (extract_sql raw) execQ) ∧
    (_validate_query (extract_sql raw) = false →
       process_query true (.ok raw) execQ true = run_execution (extract_sql raw) execQ) := by
  refine ⟨fun hv => ⟨?_, fun execQ₂ => ?_⟩, fun hv => ?_, fun hv => ?_⟩ <;>
    simp [process_query, _generate_sql_query, hv]

/-- C2 witness: the gate evaluated on an unsafe chained statement (warned,
not executed), a safe statement forced (executed), and the unsafe
statement forced (executed anyway). -/
theorem confirmation_gate_witness :
    process_query true (.ok "SELECT 1; DROP TABLE Employees") execStub false
        = warnResult "SELECT 1; DROP TABLE Employees" ∧
    process_query true (.ok "SELECT Name FROM Departments") execStub true
        = run_execution "SELECT Name FROM Departments" execStub ∧
    process_query true (.ok "SELECT 1; DROP TABLE Employees") execStub true
        = run_execution "SELECT 1; DROP TABLE Employees" execStub :=
  ⟨((confirmation_gate "SELECT 1; DROP TABLE Employees" execStub false).1 (by decide)).1,
   (confirmation_gate "SELECT Name FROM Departments" execStub true).2.1 (by decide),
   (confirmation_gate "SELECT 1; DROP TABLE Employees" execStub true).2.2 (by decide)⟩

/-- C3: `SELECT * FROM Employees; DROP TABLE Employees` classifies UNSAFE,
and every request with `force_execute = false` whose generated statement
is UNSAFE yields the warning dict, which carries the exact statement text
and the human-readable caution message; the statement is not executed
(the result does not depend on the database collaborator). -/
theorem unsafe_statement_warning :
    _validate_query "SELECT * FROM Employees; DROP TABLE Employees" = false ∧
    ∀ (raw : String) (execQ : String → Except PyError DataFrame),
      _validate_query (extract_sql raw) = false →
        process_query true (.ok raw) execQ false = warnResult (extract_sql raw) ∧
        (warnResult (extract_sql raw)).sql_query = some (extract_sql raw) ∧
        (warnResult (extract_sql raw)).warning = some warning_message ∧
        ∀ execQ₂, process_query true (.ok raw) execQ₂ false
            = process_query true (.ok raw) execQ false := by
  refine ⟨by decide, fun raw execQ hv => ⟨?_, rfl, rfl, fun execQ₂ => ?_⟩⟩ <;>
    simp [process_query, _generate_sql_query, hv]

/-- C3 witness: the chained statement of the claim produces exactly the
warning dict carrying its own text. -/
theorem unsafe_statement_warning_witness :
    process_query true (.ok "SELECT * FROM Employees; DROP TABLE Employees") execStub false
      = warnResult "SELECT * FROM Employees; DROP TABLE Employees" :=
  (unsafe_statement_warning.2 "SELECT * FROM Employees; DROP TABLE Employees"
    execStub (by decide)).1

/-- C5 counterexample: when the language model returns empty text the
pipeline does NOT fail with a generation error — the result dict has no
`error` key at all; the empty statement is classified UNSAFE and a
validation warning is returned instead. -/
theorem empty_response_is_not_an_error :
    (process_query true (.ok "") execStub false).error = none ∧
    (process_query true (.ok "") execStub false).warning = some warning_message := by
  exact ⟨by decide, by decide⟩

/-- C5 amended: if the collaborator call raises, `process_query` returns
the structured "Error processing query" dict, which is distinct from a
validation warning; but an empty response is not a generation failure —
the empty statement is classified UNSAFE, so with `force_execute = false`
the validation-warning dict (carrying the empty statement) is returned
instead. -/
theorem generation_failure_behavior (msg : String)
    (execQ execQ₂ : String → Except PyError DataFrame) (force : Bool) :
    process_query true (.error (.other msg)) execQ force
        = errResult ("Error processing query: " ++ msg) ∧
    (errResult ("Error processing query: " ++ msg)).warning = none ∧
    process_query true (.ok "") execQ₂ false = warnResult "" ∧
    (warnResult "").error = none := by
  have he : extract_sql "" = "" := by decide
  have hv : _validate_query "" = false := by decide
  refine ⟨by simp [process_query, _generate_sql_query, handle_py_error], rfl, ?_, rfl⟩
  simp [process_query, _generate_sql_query, he, hv]

/-- C6: an executed statement returning zero rows produces the Empty
result dict (`results` key present and holding Python `None`), which
differs from every rows dict and from every error dict. -/
theorem empty_result_distinct (raw : String) (execQ : String → Except PyError DataFrame)
    (force : Bool) (cols : List String)
    (hgate : _validate_query (extract_sql raw) = true ∨ force = true)
    (hexec : execQ (extract_sql raw) = .ok ⟨cols, []⟩) :
    process_query true (.ok raw) execQ force = emptyResult (extract_sql raw) ∧
    (∀ sql df, emptyResult (extract_sql raw) ≠ rowsResult sql df) ∧
    (∀ msg, emptyResult (extract_sql raw) ≠ errResult msg) := by
  refine ⟨?_, by simp [emptyResult, rowsResult], by simp [emptyResult, errResult]⟩
  rcases hgate with hv | hf
  · simp [process_query, _generate_sql_query, hv, run_execution, hexec]
  · subst hf
    simp [process_query, _generate_sql_query, run_execution, hexec]

/-- C6 witness: a safe statement against an empty result set yields the
Empty dict. -/
theorem empty_result_distinct_witness :
    process_query true (.ok "SELECT Name FROM Departments") execNoRows false
      = emptyResult "SELECT Name FROM Departments" :=
  (empty_result_distinct "SELECT Name FROM Departments" execNoRows false ["Name"]
    (Or.inl (by decide)) rfl).1

/-- C7: a database failure during execution is returned as the structured
"Database error" dict carrying the underlying message — no warning and no
results accompany it, and nothing escapes the pipeline (the failure is a
value of the result type). -/
theorem execution_error_surfaced (raw : String) (execQ : String → Except PyError DataFrame)
    (force : Bool) (msg : String)
    (hgate : _validate_query (extract_sql raw) = true ∨ force = true)
    (hexec : execQ (extract_sql raw) = .error (.sqlite msg)) :
    process_query true (.ok raw) execQ force = errResult ("Database error: " ++ msg) ∧
    (errResult ("Database error: " ++ msg)).warning = none ∧
    (errResult ("Database error: " ++ msg)).results = none := by
  refine ⟨?_, rfl, rfl⟩
  rcases hgate with hv | hf
  · simp [process_query, _generate_sql_query, hv, run_execution, hexec, handle_py_error]
  · subst hf
    simp [process_query, _generate_sql_query, run_execution, hexec, handle_py_error]

/-- C7 witness: the missing-column failure surfaces verbatim inside the
"Database error" dict. -/
theorem execution_error_surfaced_witness :
    process_query true (.ok "SELECT Foo FROM Employees") execFail false
      = errResult "Database error: no such column: Foo" :=
  (execution_error_surfaced "SELECT Foo FROM Employees" execFail false
    "no such column: Foo" (Or.inl (by decide)) rfl).1

theorem stripPrefixExact_eq (p : List Char) :
    ∀ s r : List Char, stripPrefixExact p s = some r → s = p ++ r := by
  induction p with
  | nil =>
    intro s r h
    obtain rfl : s = r := by simpa [stripPrefixExact] using h
    simp
  | cons k ks ih =>
    intro s r h
    cases s with
    | nil => simp [stripPrefixExact] at h
    | cons c cs =>
      by_cases hck : c = k
      · subst hck
        have := ih cs r (by simpa [stripPrefixExact] using h)
        simp [this]
      · simp [stripPrefixExact, hck] at h

/-- If the fenced-block regex finds a match, the bare "```sql" marker is a
substring (so the source's `in` test also passes). -/
theorem sqlBlockSearch_infix :
    ∀ s body : List Char, sqlBlockSearch s = some body → sqlMarker <:+: s := by
  intro s
  induction s with
  | nil => intro body h; simp [sqlBlockSearch] at h
  | cons c rest ih =>
    intro body h
    rw [sqlBlockSearch] at h
    cases hat : sqlBlockAt (c :: rest) with
    | some body' =>
      rw [sqlBlockAt] at hat
      cases hsp : stripPrefixExact sqlOpenTag (c :: rest) with
      | none => rw [hsp] at hat; cases hat
      | some r =>
        have hdec := stripPrefixExact_eq sqlOpenTag (c :: rest) r hsp
        have hpre : sqlMarker <+: c :: rest := by
          rw [hdec]
          exact List.IsPrefix.trans (by decide) (List.prefix_append _ _)
        exact hpre.isInfix
    | none =>
      rw [hat] at h
      exact List.infix_cons (ih body h)

/-- C8: extraction from the raw model response.  If the stripped response
contains a complete fenced block tagged `sql` (the regex
`` ```sql\n(.*?)\n``` `` matches), the candidate statement is that block's
captured contents, stripped of surrounding whitespace; otherwise the
candidate is the whole response stripped of surrounding whitespace. -/
theorem extraction_cases (raw : String) :
    (∀ body, sqlBlockSearch (pyStrip raw.data) = some body →
       extract_sql raw = String.mk (pyStrip body)) ∧
    (sqlBlockSearch (pyStrip raw.data) = none →
       extract_sql raw = String.mk (pyStrip raw.data)) := by
  constructor
  · intro body hb
    have hinf : sqlMarker <:+: pyStrip raw.data := sqlBlockSearch_infix _ body hb
    simp only [extract_sql]
    rw [if_pos (by simpa using hinf), hb]
  · intro hn
    simp only [extract_sql]
    by_cases hm : sqlMarker <:+: pyStrip raw.data
    · rw [if_pos (by simpa using hm), hn]
    · rw [if_neg (by simpa using hm)]

/-- C8 witness: a response with a tagged fenced block yields the block
contents; a bare response is merely stripped. -/
theorem extraction_cases_witness :
    extract_sql "Here is the query:\n```sql\nSELECT 1\n```\nEnjoy" = "SELECT 1" ∧
    extract_sql "  SELECT 2  " = "SELECT 2" :=
  ⟨((extraction_cases "Here is the query:\n```sql\nSELECT 1\n```\nEnjoy").1
      "SELECT 1".data (by decide)).trans (by decide),
   ((extraction_cases "  SELECT 2  ").2 (by decide)).trans (by decide)⟩

/-- C9: every pipeline invocation populates exactly one of the warning /
results / error keys; in particular no run carries both a warning and
rows — the warning short-circuits row production. -/
theorem exactly_one_variant (connected : Bool) (llmResponse : Except PyError String)
    (execQ : String → Except PyError DataFrame) (force : Bool) :
    populatedKeys (process_query connected llmResponse execQ force) = 1 ∧
    ¬((process_query connected llmResponse execQ force).warning.isSome = true ∧
      (process_query connected llmResponse execQ force).results.isSome = true) := by
  cases connected with
  | false => simp [process_query, populatedKeys, errResult]
  | true =>
    cases llmResponse with
    | error e =>
      cases e <;> simp [process_query, _generate_sql_query, handle_py_error,
        populatedKeys, errResult]
    | ok raw =>
      simp only [process_query, _generate_sql_query, Bool.not_true, Bool.false_eq_true,
        if_false]
      by_cases hg : (!_validate_query (extract_sql raw) && !force) = true
      · simp [hg, populatedKeys, warnResult]
      · rw [if_neg (by simpa using hg)]
        rw [run_execution]
        cases hexec : execQ (extract_sql raw) with
        | error e =>
          cases e <;> simp [handle_py_error, populatedKeys, errResult]
        | ok df =>
          by_cases hr : df.rows.isEmpty <;>
            simp [hr, populatedKeys, emptyResult, rowsResult]
